import Mathlib

/-!
Verification development for the Obsidian-to-Notion synchronization plugin.

Shallow embedding conventions:
* a JavaScript string is modelled as a `List Char` (`Str`); `.length`,
  `.substring`, `.split`, etc. become the corresponding list operations;
* the Notion API block objects produced by the converter are modelled by the
  inductive type `NotionBlock`, one constructor per block shape the code
  builds, carrying the `rich_text[0].text.content` payload (and the language
  for code blocks);
* `while` loops that advance an index become recursive functions; where the
  advance is not structural, an explicit fuel argument bounds the recursion
  (the wrapper supplies fuel larger than the number of iterations the loop
  can perform, so the fuel case is unreachable);
* remote I/O (Notion HTTP calls, vault reads) is modelled by a `SyncEnv`
  record of call-outcome functions; a JS `throw`/`catch` becomes
  `Except String`, and a `try { … } catch { continue }` becomes a `match`
  that swallows the error;
* `Date.now()` and MD5 hashing are abstracted as the `now`/`hashFn`
  parameters of the corresponding functions.
-/

abbrev Str := List Char

/-- Chars of a Lean string literal, used to transcribe JS string literals. -/
def strLit (s : String) : Str := s.data

/-- JS whitespace as used by `\s`, `trim()` (ASCII part). -/
def isSpaceChar (c : Char) : Bool :=
  c = ' ' || c = '\t' || c = '\n' || c = '\r' || c = '\x0b' || c = '\x0c'

/-- The char class `[a-zA-Z0-9]` from `cleanPageId`'s regex. -/
def isAsciiAlphanum (c : Char) : Bool :=
  ('a' ≤ c && c ≤ 'z') || ('A' ≤ c && c ≤ 'Z') || ('0' ≤ c && c ≤ '9')

/-- The regex word class `\w` = `[A-Za-z0-9_]`. -/
def isWordChar (c : Char) : Bool := isAsciiAlphanum c || c = '_'

/-- The char class `[\w-]` from `createCodeBlock`'s fence-stripping regex. -/
def isWordDashChar (c : Char) : Bool := isWordChar c || c = '-'

/-- JS `s.startsWith(p)` (first argument is the string, second the pattern). -/
def strStartsWith : Str → Str → Bool
  | _, [] => true
  | [], _ :: _ => false
  | c :: s, p :: ps => c = p && strStartsWith s ps

/-- JS `s.endsWith(p)`. -/
def strEndsWith (s p : Str) : Bool := strStartsWith s.reverse p.reverse

/-- JS `s.trim()`. -/
def jsTrim (s : Str) : Str :=
  ((s.dropWhile isSpaceChar).reverse.dropWhile isSpaceChar).reverse

/-- JS `s.toLowerCase()`. -/
def toLowerStr (s : Str) : Str := s.map Char.toLower

/-- JS `s.split(sep)` for a one-char separator. -/
def splitOnChar (sep : Char) (s : Str) : List Str :=
  s.foldr
    (fun c acc =>
      if c = sep then [] :: acc
      else
        match acc with
        | [] => [[c]]
        | l :: ls => (c :: l) :: ls)
    [[]]

/-- JS `s.split("\n")`. -/
def splitLines (s : Str) : List Str := splitOnChar '\n' s

/-- JS `path.split("/")` on a path string. -/
def splitOnSlash (s : String) : List String :=
  (splitOnChar '/' s.data).map (fun cs => String.mk cs)

/-- JS `parts.join("/")` on path strings. -/
def joinPath (parts : List String) : String :=
  match parts with
  | [] => ""
  | x :: rest => rest.foldl (fun acc y => acc ++ "/" ++ y) x

/-- JS `parts.join("\n")`. -/
def joinNl (xs : List Str) : Str := List.intercalate ['\n'] xs

/-- One-char-at-a-time replacement, used for the global single-char regex
replaces in the source (`replace(/x/g, "y")`). -/
def replaceEach (f : Char → Str) (s : Str) : Str := (s.map f).flatten

/-- `content.replace(/\\/g, "\\\\")`. -/
def escapeBackslashes (s : Str) : Str :=
  replaceEach (fun c => if c = '\\' then strLit "\\\\" else [c]) s

/-- `content.replace(/"/g, '\\"')`. -/
def escapeQuotes (s : Str) : Str :=
  replaceEach (fun c => if c = '"' then strLit "\\\"" else [c]) s

/-- `content.replace(/\t/g, "  ")` (tabs to two spaces, `createCodeBlock`). -/
def tabsToTwoSpaces (s : Str) : Str :=
  replaceEach (fun c => if c = '\t' then strLit "  " else [c]) s

/-- `markdown.replace(/\t/g, "    ")` (tabs to four spaces, parser entry). -/
def replaceTabs4 (s : Str) : Str :=
  replaceEach (fun c => if c = '\t' then strLit "    " else [c]) s

/-- `markdown.replace(/\r\n/g, "\n")` (left-to-right, non-overlapping). -/
def normalizeNewlines : Str → Str
  | [] => []
  | [c] => [c]
  | c :: d :: rest =>
      if c = '\r' && d = '\n' then '\n' :: normalizeNewlines rest
      else c :: normalizeNewlines (d :: rest)

/-! ## The block model

One constructor per block object shape built by the source
(`createParagraphBlock`, `createHeadingBlock`, `createBulletListBlock`,
`createNumberedListBlock`, `createCodeBlock` / `createOptimizedCodeBlock`,
and the inline divider object), carrying the `rich_text[0].text.content`
payload and, for code, the `language` field. -/

inductive NotionBlock where
  | paragraph (content : Str)
  | heading (level : Nat) (content : Str)
  | bulletItem (content : Str)
  | numberedItem (content : Str)
  | code (content : Str) (language : Str)
  | divider
deriving DecidableEq, Repr

/-- Serialized text payload of a block (the `rich_text[0].text.content`). -/
def blockTextLength : NotionBlock → Nat
  | .paragraph c => c.length
  | .heading _ c => c.length
  | .bulletItem c => c.length
  | .numberedItem c => c.length
  | .code c _ => c.length
  | .divider => 0

def createParagraphBlock (content : Str) : NotionBlock := .paragraph content

def createHeadingBlock (content : Str) (level : Nat) : NotionBlock :=
  .heading level content

def createBulletListBlock (content : Str) : NotionBlock := .bulletItem content

def createNumberedListBlock (content : Str) : NotionBlock :=
  .numberedItem content

/-! ## Line classification (the regex guards of the converters) -/

/-- Truthiness of `line.match(/^\s*[-*+]\s/)`. -/
def isBulletLine (line : Str) : Bool :=
  match line.dropWhile isSpaceChar with
  | c :: d :: _ => (c = '-' || c = '*' || c = '+') && isSpaceChar d
  | _ => false

/-- `line.replace(/^\s*[-*+]\s/, "")` (non-global: removes the one leading
match when present, otherwise leaves the line unchanged). -/
def stripBulletMarker (line : Str) : Str :=
  match line.dropWhile isSpaceChar with
  | c :: d :: rest =>
      if (c = '-' || c = '*' || c = '+') && isSpaceChar d then rest else line
  | _ => line

/-- Truthiness of `line.match(/^\s*\d+\.\s/)`. -/
def isNumberedLine (line : Str) : Bool :=
  let t := line.dropWhile isSpaceChar
  let ds := t.takeWhile Char.isDigit
  match t.drop ds.length with
  | '.' :: d :: _ => !ds.isEmpty && isSpaceChar d
  | _ => false

/-- `line.replace(/^\s*\d+\.\s/, "")`. -/
def stripNumberMarker (line : Str) : Str :=
  let t := line.dropWhile isSpaceChar
  let ds := t.takeWhile Char.isDigit
  match t.drop ds.length with
  | '.' :: d :: rest =>
      if !ds.isEmpty && isSpaceChar d then rest else line
  | _ => line

/-- Truthiness of `/^-{3,}$|^_{3,}$|^\*{3,}$/.test(line)` (horizontal rule). -/
def isHrLine (line : Str) : Bool :=
  decide (3 ≤ line.length) &&
    (line.all (fun c => c = '-') || line.all (fun c => c = '_') ||
      line.all (fun c => c = '*'))

/-! ## notion-utils: createCodeBlock (the second, current version) -/

/-- The `supportedLanguages` whitelist of `createCodeBlock` /
`createOptimizedCodeBlock` (identical in both). -/
def supportedLanguages : List Str :=
  [strLit "abap", strLit "arduino", strLit "bash", strLit "basic",
   strLit "c", strLit "clojure", strLit "coffeescript", strLit "cpp",
   strLit "csharp", strLit "css", strLit "dart", strLit "diff",
   strLit "docker", strLit "elixir", strLit "elm", strLit "erlang",
   strLit "flow", strLit "fortran", strLit "fsharp", strLit "gherkin",
   strLit "glsl", strLit "go", strLit "graphql", strLit "groovy",
   strLit "haskell", strLit "html", strLit "java", strLit "javascript",
   strLit "json", strLit "julia", strLit "kotlin", strLit "latex",
   strLit "less", strLit "lisp", strLit "livescript", strLit "lua",
   strLit "makefile", strLit "markdown", strLit "markup", strLit "matlab",
   strLit "mermaid", strLit "nix", strLit "objective-c", strLit "ocaml",
   strLit "pascal", strLit "perl", strLit "php", strLit "plain text",
   strLit "powershell", strLit "prolog", strLit "protobuf", strLit "python",
   strLit "r", strLit "reason", strLit "ruby", strLit "rust",
   strLit "sass", strLit "scala", strLit "scheme", strLit "scss",
   strLit "shell", strLit "sql", strLit "swift", strLit "typescript",
   strLit "vb.net", strLit "verilog", strLit "vhdl", strLit "visual basic",
   strLit "webassembly", strLit "xml", strLit "yaml"]

/-- The leading alternative of `content.replace(/^```[\w-]*\n|```$/g, "")`:
if the content opens with a fenced line, the remainder after it. -/
def fenceOpenRemainder (s : Str) : Option Str :=
  match s with
  | '`' :: '`' :: '`' :: rest =>
      match rest.dropWhile isWordDashChar with
      | '\n' :: rest2 => some rest2
      | _ => none
  | _ => none

/-- `content.replace(/^```[\w-]*\n|```$/g, "")`: strip a leading fence line
and/or a trailing triple backtick (the two anchored alternatives are the only
possible matches). -/
def stripFenceDelims (s : Str) : Str :=
  let s1 := (fenceOpenRemainder s).getD s
  if strEndsWith s1 (strLit "```") then s1.take (s1.length - 3) else s1

/-- notion-utils `createCodeBlock` (the current version): strips the fence
delimiters, escapes backslashes and double quotes, converts tabs to two
spaces, whitelists the (lowercased, trimmed) language, and trims the
content. -/
def createCodeBlock (content : Str) (language : Str) : NotionBlock :=
  let content1 := stripFenceDelims content
  let content2 := tabsToTwoSpaces (escapeQuotes (escapeBackslashes content1))
  let normalizedLanguage := jsTrim (toLowerStr language)
  let finalLanguage :=
    if supportedLanguages.contains normalizedLanguage then normalizedLanguage
    else strLit "plain text"
  .code (jsTrim content2) finalLanguage

/-! ## notion-utils: markdownToNotionBlocks (the second, current version) -/

/-- `if (currentParagraph) blocks.push(createParagraphBlock(...))`. -/
def flushPara (currentParagraph : Str) : List NotionBlock :=
  if currentParagraph.isEmpty then [] else [createParagraphBlock currentParagraph]

/-- The line loop of `markdownToNotionBlocks`, with its four mutable locals
(`currentParagraph`, `inCodeBlock`, `codeContent`, `codeLanguage`) threaded
as arguments. -/
def mdGo : List Str → Str → Bool → Str → Str → List NotionBlock
  | [], currentParagraph, inCodeBlock, codeContent, _codeLanguage =>
      (if inCodeBlock && !codeContent.isEmpty
        then [createCodeBlock codeContent _codeLanguage] else [])
        ++ flushPara currentParagraph
  | line :: rest, currentParagraph, inCodeBlock, codeContent, codeLanguage =>
      if strStartsWith line (strLit "```") then
        if !inCodeBlock then
          flushPara currentParagraph ++
            mdGo rest [] true [] (jsTrim (line.drop 3))
        else
          createCodeBlock codeContent codeLanguage ::
            mdGo rest currentParagraph false [] []
      else if inCodeBlock then
        mdGo rest currentParagraph true (codeContent ++ line ++ ['\n'])
          codeLanguage
      else if strStartsWith line (strLit "# ") then
        flushPara currentParagraph ++
          createHeadingBlock (line.drop 2) 1 ::
            mdGo rest [] inCodeBlock codeContent codeLanguage
      else if strStartsWith line (strLit "## ") then
        flushPara currentParagraph ++
          createHeadingBlock (line.drop 3) 2 ::
            mdGo rest [] inCodeBlock codeContent codeLanguage
      else if strStartsWith line (strLit "### ") then
        flushPara currentParagraph ++
          createHeadingBlock (line.drop 4) 3 ::
            mdGo rest [] inCodeBlock codeContent codeLanguage
      else if isBulletLine line then
        flushPara currentParagraph ++
          createBulletListBlock (stripBulletMarker line) ::
            mdGo rest [] inCodeBlock codeContent codeLanguage
      else if isNumberedLine line then
        flushPara currentParagraph ++
          createNumberedListBlock (stripNumberMarker line) ::
            mdGo rest [] inCodeBlock codeContent codeLanguage
      else if (jsTrim line).isEmpty then
        flushPara currentParagraph ++
          mdGo rest [] inCodeBlock codeContent codeLanguage
      else
        mdGo rest
          (if currentParagraph.isEmpty then line
            else currentParagraph ++ '\n' :: line)
          inCodeBlock codeContent codeLanguage

/-- notion-utils `markdownToNotionBlocks` (the current, fence-state
version). -/
def markdownToNotionBlocks (markdownContent : Str) : List NotionBlock :=
  mdGo (splitLines markdownContent) [] false [] []

/-! ## notion-utils: sanitizeContent / sanitizeBlocks / chunking -/

/-- The char class `[\u0000-\u001F\u007F-\u009F]` stripped by
`sanitizeContent` (note it includes `\n` and `\t`). -/
def isStrippedCtrl (c : Char) : Bool :=
  c.toNat ≤ 0x1F || (0x7F ≤ c.toNat && c.toNat ≤ 0x9F)

/-- JS `s.split("\n\n")` (left-to-right, non-overlapping). -/
def splitOnDoubleNewline : Str → List Str
  | [] => [[]]
  | [c] => [[c]]
  | c :: d :: rest =>
      if c = '\n' && d = '\n' then [] :: splitOnDoubleNewline rest
      else
        match splitOnDoubleNewline (d :: rest) with
        | [] => [[c]]
        | l :: ls => (c :: l) :: ls

/-- notion-utils `sanitizeContent`: strip the control-char class, then cap
every `"\n\n"`-separated paragraph at 1900 chars (appending `"..."`). -/
def sanitizeContent (content : Str) : Str :=
  let sanitized := content.filter (fun c => !isStrippedCtrl c)
  let paragraphs := splitOnDoubleNewline sanitized
  let limitedParagraphs := paragraphs.map (fun p =>
    if p.length > 1900 then p.take 1900 ++ strLit "..." else p)
  List.intercalate (strLit "\n\n") limitedParagraphs

/-- JS `content.lastIndexOf("\n", pos)`: the largest index `≤ pos` holding a
newline, if any. -/
def lastNewlineIdxLE (content : Str) (pos : Nat) : Option Nat :=
  (List.range (min (pos + 1) content.length)).foldl
    (fun acc i => if content.getD i ' ' = '\n' then some i else acc) none

/-- The `while (start < content.length)` loop of `splitContentIntoChunks`;
the fuel exceeds the iteration count (`start` strictly increases). -/
def splitChunksGo (content : Str) (maxSize : Nat) : Nat → Nat → List Str
  | 0, _ => []
  | fuel + 1, start =>
      if start < content.length then
        let endIdx0 := start + maxSize
        let endIdx :=
          if endIdx0 < content.length then
            match lastNewlineIdxLE content endIdx0 with
            | some newlinePos =>
                if start < newlinePos then newlinePos else endIdx0
            | none => endIdx0
          else content.length
        ((content.drop start).take (endIdx - start)) ::
          splitChunksGo content maxSize fuel (endIdx + 1)
      else []

/-- notion-utils `splitContentIntoChunks`. -/
def splitContentIntoChunks (content : Str) (maxSize : Nat) : List Str :=
  splitChunksGo content maxSize (content.length + 1) 0

/-- `content.replace(/\u0000-\u001F/g, "")` from `sanitizeBlocks`: with no
brackets this regex matches the literal three-char sequence NUL, `-`, US. -/
def removeCtrlDashSeq : Str → Str
  | '\x00' :: '-' :: '\x1f' :: rest => removeCtrlDashSeq rest
  | c :: rest => c :: removeCtrlDashSeq rest
  | [] => []

/-- notion-utils `sanitizeBlocks`: cap code content at 1900 chars (with a
truncation notice) and re-escape it; cap paragraph content at 1900 chars
(appending `"..."`); leave every other block untouched. -/
def sanitizeBlocks (blocks : List NotionBlock) : List NotionBlock :=
  blocks.map (fun block =>
    match block with
    | .code content lang =>
        let c1 :=
          if content.length > 1900 then
            content.take 1900 ++ strLit "\n\n... (conteúdo truncado)"
          else content
        .code (removeCtrlDashSeq (escapeBackslashes c1)) lang
    | .paragraph content =>
        if content.length > 1900 then
          .paragraph (content.take 1900 ++ strLit "...")
        else .paragraph content
    | b => b)

/-- notion-utils `enhancedMarkdownToNotionBlocks`: sanitize the raw text,
convert, split oversized (> 1800) code blocks into chunked code blocks,
flatten, then sanitize the blocks. -/
def enhancedMarkdownToNotionBlocks (markdownContent : Str) : List NotionBlock :=
  let sanitizedMarkdown := sanitizeContent markdownContent
  let rawBlocks := markdownToNotionBlocks sanitizedMarkdown
  let rawBlocks2 := (rawBlocks.map (fun block =>
    match block with
    | .code content language =>
        if content.length > 1800 then
          (splitContentIntoChunks content 1800).map
            (fun part => createCodeBlock part language)
        else [block]
    | _ => [block])).flatten
  sanitizeBlocks rawBlocks2

/-- The `for (i += N) chunks.push(blocks.slice(i, i + N))` pattern of
`splitIntoManageableBlocks` and the batch loops (fuel exceeds iterations). -/
def chunkListGo (n : Nat) : Nat → List α → List (List α)
  | 0, _ => []
  | fuel + 1, l =>
      if l.isEmpty then [] else l.take n :: chunkListGo n fuel (l.drop n)

/-- notion-utils `splitIntoManageableBlocks` (`MAX_BLOCKS_PER_REQUEST = 40`). -/
def splitIntoManageableBlocks (blocks : List NotionBlock) : List (List NotionBlock) :=
  chunkListGo 40 (blocks.length + 1) blocks

/-- notion-utils `cleanPageId`: keep `[a-zA-Z0-9]`, then cap at 32 chars. -/
def cleanPageId (pageId : Str) : Str :=
  let cleanId := pageId.filter isAsciiAlphanum
  if cleanId.length > 32 then cleanId.take 32 else cleanId

/-! ## sync-persistence: FileTracker -/

namespace FileTracker

/-- One entry of the `fileHashes` record: `{ hash, lastSync }`. -/
structure TrackEntry where
  hash : Str
  lastSync : Nat
deriving DecidableEq, Repr

/-- The `fileHashes` map, path-indexed. -/
abbrev Tracking := String → Option TrackEntry

/-- `FileTracker.hasFileChanged`, with the MD5 hash abstracted as `hashFn`
and the `vault.read` outcome passed as `readFile` (a read is attempted only
when the mtime is newer than the recorded sync time; its error propagates). -/
def hasFileChanged (hashFn : Str → Str) (fileHashes : Tracking)
    (path : String) (mtime : Nat) (readFile : Except String Str) :
    Except String Bool :=
  match fileHashes path with
  | none => .ok true
  | some entry =>
      if mtime > entry.lastSync then
        match readFile with
        | .error e => .error e
        | .ok content => .ok (hashFn content != entry.hash)
      else .ok false

/-- `FileTracker.updateFileTracking`: store the content hash and the current
time (`Date.now()` abstracted as `now`) for the path. -/
def updateFileTracking (hashFn : Str → Str) (fileHashes : Tracking)
    (path : String) (content : Str) (now : Nat) : Tracking :=
  fun p => if p = path then some ⟨hashFn content, now⟩ else fileHashes p

/-- `FileTracker.cleanupDeletedFiles`: drop every entry whose path is not in
the current enumeration. -/
def cleanupDeletedFiles (fileHashes : Tracking) (existingPaths : List String) :
    Tracking :=
  fun p => if p ∈ existingPaths then fileHashes p else none

end FileTracker

/-! ## NotionSyncService (the current implementation): converters -/

/-- `NotionSyncService.createOptimizedCodeBlock`: whitelist the (lowercased,
trimmed) language and trim the content; no escaping. -/
def createOptimizedCodeBlock (content : Str) (language : Str) : NotionBlock :=
  let normalizedLanguage := jsTrim (toLowerStr language)
  let finalLanguage :=
    if supportedLanguages.contains normalizedLanguage then normalizedLanguage
    else strLit "plain text"
  .code (jsTrim content) finalLanguage

/-- The paragraph-continuation condition of the inner `while` in
`convertMarkdownToEnhancedBlocks` and `parseMarkdownToBlocks`: the next line
is non-blank and is not a heading start, fence start, bullet or numbered
item (a horizontal-rule line is not excluded). -/
def paraContinues (l : Str) : Bool :=
  !(jsTrim l).isEmpty && !strStartsWith l (strLit "#") &&
    !strStartsWith l (strLit "```") && !isBulletLine l && !isNumberedLine l

/-- The `while (i < lines.length)` loop of
`NotionSyncService.convertMarkdownToEnhancedBlocks`; the index jumps become
`takeWhile`/`dropWhile` on the remaining lines, and the fuel exceeds the
iteration count (every step consumes at least one line). -/
def convEnhGo : Nat → List Str → List NotionBlock
  | 0, _ => []
  | _, [] => []
  | fuel + 1, line :: rest =>
      if strStartsWith line (strLit "```") then
        let codeInfo := jsTrim (line.drop 3)
        let language := if codeInfo.isEmpty then strLit "plain text" else codeInfo
        let codeLines := rest.takeWhile (fun l => !strStartsWith l (strLit "```"))
        let codeContent := codeLines.foldr (fun l acc => l ++ '\n' :: acc) []
        let rest2 := (rest.dropWhile (fun l => !strStartsWith l (strLit "```"))).drop 1
        createOptimizedCodeBlock codeContent language :: convEnhGo fuel rest2
      else if strStartsWith line (strLit "# ") then
        createHeadingBlock (line.drop 2) 1 :: convEnhGo fuel rest
      else if strStartsWith line (strLit "## ") then
        createHeadingBlock (line.drop 3) 2 :: convEnhGo fuel rest
      else if strStartsWith line (strLit "### ") then
        createHeadingBlock (line.drop 4) 3 :: convEnhGo fuel rest
      else if isBulletLine line then
        createBulletListBlock (stripBulletMarker line) :: convEnhGo fuel rest
      else if isNumberedLine line then
        createNumberedListBlock (stripNumberMarker line) :: convEnhGo fuel rest
      else if isHrLine line then
        NotionBlock.divider :: convEnhGo fuel rest
      else
        let absorbed := rest.takeWhile paraContinues
        let rest2 := rest.dropWhile paraContinues
        let paragraphContent := joinNl (line :: absorbed)
        if !(jsTrim paragraphContent).isEmpty then
          createParagraphBlock paragraphContent :: convEnhGo fuel rest2
        else convEnhGo fuel (rest2.drop 1)

/-- `NotionSyncService.convertMarkdownToEnhancedBlocks` (normalizes CRLF and
tabs, then runs the line loop). -/
def convertMarkdownToEnhancedBlocks (markdown : Str) : List NotionBlock :=
  let processedMarkdown := replaceTabs4 (normalizeNewlines markdown)
  let lines := splitLines processedMarkdown
  convEnhGo (lines.length + 1) lines

/-- The `while (i < lines.length)` loop of
`NotionSyncService.parseMarkdownToBlocks`; same conventions as `convEnhGo`.
The code-block language is the `\w*` capture after the opening fence
(`language || "plain text"`), the code lines are joined with `"\n"` and not
trimmed, and blank lines just advance. -/
def parseMdGo : Nat → List Str → List NotionBlock
  | 0, _ => []
  | _, [] => []
  | fuel + 1, line :: rest =>
      if strStartsWith line (strLit "```") then
        let language := (line.drop 3).takeWhile isWordChar
        let langFinal := if language.isEmpty then strLit "plain text" else language
        let codeLines := rest.takeWhile (fun l => !strStartsWith l (strLit "```"))
        let codeContent := joinNl codeLines
        let rest2 := (rest.dropWhile (fun l => !strStartsWith l (strLit "```"))).drop 1
        NotionBlock.code codeContent langFinal :: parseMdGo fuel rest2
      else if strStartsWith line (strLit "# ") then
        NotionBlock.heading 1 (line.drop 2) :: parseMdGo fuel rest
      else if strStartsWith line (strLit "## ") then
        NotionBlock.heading 2 (line.drop 3) :: parseMdGo fuel rest
      else if strStartsWith line (strLit "### ") then
        NotionBlock.heading 3 (line.drop 4) :: parseMdGo fuel rest
      else if isBulletLine line then
        NotionBlock.bulletItem (stripBulletMarker line) :: parseMdGo fuel rest
      else if isNumberedLine line then
        NotionBlock.numberedItem (stripNumberMarker line) :: parseMdGo fuel rest
      else if isHrLine line then
        NotionBlock.divider :: parseMdGo fuel rest
      else if !(jsTrim line).isEmpty then
        let absorbed := rest.takeWhile paraContinues
        let rest2 := rest.dropWhile paraContinues
        NotionBlock.paragraph (joinNl (line :: absorbed)) :: parseMdGo fuel rest2
      else parseMdGo fuel rest

/-- `NotionSyncService.parseMarkdownToBlocks`. -/
def parseMarkdownToBlocks (markdown : Str) : List NotionBlock :=
  let normalizedMd := replaceTabs4 (normalizeNewlines markdown)
  let lines := splitLines normalizedMd
  parseMdGo (lines.length + 1) lines

/-! ## NotionSyncService: the retried append wrappers

The per-attempt request outcome is abstracted as `succeeds : Nat → Bool`
(indexed by the value of `retryCount` when the attempt is made). The trace
records the batch size of every attempt made, the backoff waits performed,
and whether the call returned or threw after exhausting its retries. -/

structure RetryTrace where
  attemptSizes : List Nat
  delays : List Nat
  succeeded : Bool
deriving DecidableEq, Repr

/-- The `while (retryCount < MAX_RETRIES)` loop of
`NotionSyncService.appendBlocksWithRetry` (`MAX_RETRIES = 3`; after a failed
attempt `retryCount` is incremented, the wait is `500 * 2 ^ retryCount`, and
the batch is halved only while it holds more than 10 blocks). -/
def appendRetryGo (succeeds : Nat → Bool) :
    Nat → List α → Nat → RetryTrace
  | 0, _, _ => ⟨[], [], false⟩
  | fuel + 1, blocks, retryCount =>
      if succeeds retryCount then ⟨[blocks.length], [], true⟩
      else if retryCount + 1 ≥ 3 then ⟨[blocks.length], [], false⟩
      else
        let delay := 500 * 2 ^ (retryCount + 1)
        let blocks' :=
          if blocks.length > 10 then blocks.take (blocks.length / 2) else blocks
        let t := appendRetryGo succeeds fuel blocks' (retryCount + 1)
        ⟨blocks.length :: t.attemptSizes, delay :: t.delays, t.succeeded⟩

/-- `NotionSyncService.appendBlocksWithRetry`. -/
def appendBlocksWithRetry (succeeds : Nat → Bool) (blocks : List α) :
    RetryTrace :=
  appendRetryGo succeeds 3 blocks 0

/-- The retry loop of `NotionSyncService.appendBlocksSafely`: identical
policy except the batch is halved only while it holds more than 5 blocks
(the per-attempt `sanitizeBlocks` call does not affect the trace). -/
def appendSafelyGo (succeeds : Nat → Bool) :
    Nat → List α → Nat → RetryTrace
  | 0, _, _ => ⟨[], [], false⟩
  | fuel + 1, blocks, retryCount =>
      if succeeds retryCount then ⟨[blocks.length], [], true⟩
      else if retryCount + 1 ≥ 3 then ⟨[blocks.length], [], false⟩
      else
        let delay := 500 * 2 ^ (retryCount + 1)
        let blocks' :=
          if blocks.length > 5 then blocks.take (blocks.length / 2) else blocks
        let t := appendSafelyGo succeeds fuel blocks' (retryCount + 1)
        ⟨blocks.length :: t.attemptSizes, delay :: t.delays, t.succeeded⟩

/-- `NotionSyncService.appendBlocksSafely`. -/
def appendBlocksSafely (succeeds : Nat → Bool) (blocks : List α) :
    RetryTrace :=
  appendSafelyGo succeeds 3 blocks 0

/-- One halving step of `appendBlocksWithRetry`'s batch shrinking. -/
def halveAbove10 (n : Nat) : Nat := if n > 10 then n / 2 else n

/-- One halving step of `appendBlocksSafely`'s batch shrinking. -/
def halveAbove5 (n : Nat) : Nat := if n > 5 then n / 2 else n

/-- Iterated application, used to state the batch-size sequences. -/
def applyN (f : Nat → Nat) : Nat → Nat → Nat
  | 0, n => n
  | k + 1, n => applyN f k (f n)

/-! ## NotionSyncService: orchestration

Paths and remote node ids are Lean `String`s. The remote collaborators
(`requestUrl`-level calls, `NotionClient`, the vault) are modelled by a
`SyncEnv` of call outcomes; each field is the result of the corresponding
call in the source, with its internal catch-and-default behavior already
applied where the source swallows errors (`doesPageExistByTitle` and
`doesFolderExistInNotion` return null on error, `doesNotionPageExist` maps
404 to false and other errors to true). -/

/-- A `VaultFile` from the vault scanner (`file.stat.mtime` inlined). -/
structure VaultFile where
  path : String
  name : String
  parent : String
  mtime : Nat
deriving DecidableEq, Repr

/-- The in-memory `pageCache` (local path → Notion page id). -/
abbrev PageCache := String → Option String

def setCache (cache : PageCache) (path id : String) : PageCache :=
  fun q => if q = path then some id else cache q

def removeCache (cache : PageCache) (path : String) : PageCache :=
  fun q => if q = path then none else cache q

/-- Outcomes of the remote and vault calls made during a pass. -/
structure SyncEnv where
  /-- `notionClient.testConnection()`. -/
  testConnection : Bool
  /-- The configured root page id. -/
  rootPageId : String
  /-- MD5 of `calculateFileHash`, abstracted. -/
  hashFn : Str → Str
  /-- `Date.now()` at tracking-update time, abstracted. -/
  now : Nat
  /-- `vault.read(file)`, by path; may throw. -/
  readFile : String → Except String Str
  /-- `processMarkdownFrontmatter` body text plus `processLinksInContent`
  rewriting (pure string processing parameterized by the page cache);
  abstracted as a collaborator because no claim depends on its output. -/
  processDoc : PageCache → Str → Str
  /-- `doesPageExistByTitle(parentId, title)` (errors already mapped to null). -/
  pageExistsByTitle : String → String → Option String
  /-- `doesNotionPageExist(pageId)` (404 mapped to false, other errors true). -/
  notionPageExists : String → Bool
  /-- `clearAllBlocks(pageId)`; may throw. -/
  clearBlocks : String → Except String Unit
  /-- Net outcome of one retried batch append to a page (success, or the
  error thrown once retries are exhausted). -/
  appendBatch : String → List NotionBlock → Except String Unit
  /-- Page creation request (`POST /v1/pages`) with initial children;
  returns the new page id or throws. -/
  createPage : String → String → List NotionBlock → Except String String
  /-- The minimal-content fallback page creation in `createNotionPageRobust`. -/
  createPageMinimal : String → String → Except String String
  /-- `doesFolderExistInNotion(parentId, folderName)` (errors mapped to null). -/
  folderExists : String → String → Option String
  /-- `notionClient.createFolderPage(parentId, folderName)`; may throw. -/
  createFolderPage : String → String → Except String String
  /-- `getAllChildPages(rootPageId)`; may throw. -/
  childPagesOfRoot : Except String (List String)
  /-- `archivePage(pageId)`; per-page errors are swallowed by the caller. -/
  archivePage : String → Except String Unit

/-- Mutable state of a `NotionSyncService` instance: the page cache and the
`FileTracker` map. -/
structure SyncState where
  pageCache : PageCache
  tracking : FileTracker.Tracking

/-- The summary counters logged at the end of a pass. -/
structure SyncCounts where
  successCount : Nat
  existingCount : Nat
  skippedCount : Nat
  errorCount : Nat
deriving DecidableEq, Repr

/-- Per-file outcome of the loop body (the `continue` reasons). -/
inductive FileOutcome where
  | success
  | existing
  | skipped
  | nonMarkdown
deriving DecidableEq, Repr

/-! ### Path sorting

`localeCompare(undefined, { numeric: true, sensitivity: "base" })` is
approximated by a case-insensitive lexicographic order comparing maximal
digit runs numerically; the collation fine points beyond that are not
observable by any claim proved here. -/

/-- Numeric value of a digit run. -/
def digitsToNat (ds : Str) : Nat :=
  ds.foldl (fun n c => n * 10 + (c.toNat - 48)) 0

/-- Case-insensitive, digit-run-numeric strict order on chars of two
strings (fuel exceeds the recursion depth). -/
def pathLtGo : Nat → Str → Str → Bool
  | 0, _, _ => false
  | _, [], [] => false
  | _, [], _ :: _ => true
  | _, _ :: _, [] => false
  | fuel + 1, a :: as, b :: bs =>
      if a.isDigit && b.isDigit then
        let ra := (a :: as).takeWhile Char.isDigit
        let rb := (b :: bs).takeWhile Char.isDigit
        if digitsToNat ra ≠ digitsToNat rb then
          decide (digitsToNat ra < digitsToNat rb)
        else
          pathLtGo fuel ((a :: as).dropWhile Char.isDigit)
            ((b :: bs).dropWhile Char.isDigit)
      else if a.toLower = b.toLower then pathLtGo fuel as bs
      else decide (a.toLower < b.toLower)

/-- Strict "locale" order on path strings. -/
def pathLtStr (a b : String) : Bool :=
  pathLtGo (a.data.length + b.data.length + 1) a.data b.data

/-- Non-strict companion used as the sort comparator. -/
def pathLeStr (a b : String) : Bool := !pathLtStr b a

/-- Insertion of one element into a sorted list. -/
def insertSorted (le : α → α → Bool) (x : α) : List α → List α
  | [] => [x]
  | y :: ys => if le x y then x :: y :: ys else y :: insertSorted le x ys

/-- Insertion sort standing for `Array.prototype.sort` with a comparator. -/
def sortByBool (le : α → α → Bool) (l : List α) : List α :=
  l.foldr (insertSorted le) []

/-- `NotionSyncService.sortFilesByPath`: by parent path, then by name. -/
def fileLe (a b : VaultFile) : Bool :=
  if a.parent = b.parent then pathLeStr a.name b.name
  else pathLeStr a.parent b.parent

def sortFilesByPath (files : List VaultFile) : List VaultFile :=
  sortByBool fileLe files

/-! ### ensureFolderStructure (part_002 version, with existence checks) -/

/-- The prefix paths added to the folder `Set` for one file's parent
(`parts` built left to right, empty segments skipped). -/
def pathPrefixes (parent : String) : List String :=
  let parts := (splitOnSlash parent).filter (fun p => p ≠ "")
  (parts.foldl
    (fun (st : String × List String) part =>
      let currentPath := if st.1 = "" then part else st.1 ++ "/" ++ part
      (currentPath, st.2 ++ [currentPath]))
    ("", [])).2

/-- `Set<string>` insertion (keeps first-insertion order). -/
def insertUniq (x : String) (l : List String) : List String :=
  if x ∈ l then l else l ++ [x]

/-- The folder-collection loop of `ensureFolderStructure`. -/
def collectFolders (files : List VaultFile) : List String :=
  files.foldl
    (fun acc f => (pathPrefixes f.parent).foldl (fun a p => insertUniq p a) acc)
    []

/-- One iteration of the folder loop (wrapped in `try`/`catch` in the
source, so a `createFolderPage` throw leaves the cache unset and the loop
continues). Returns the updated cache and the list of folder paths for
which a folder-ensure interaction (existence check and/or create) was
performed. -/
def ensureOneFolder (env : SyncEnv) (cache : PageCache) (folderPath : String) :
    PageCache × List String :=
  let parts := splitOnSlash folderPath
  let folderName := parts.getLastD ""
  if parts.length = 1 then
    match cache folderPath with
    | some _ => (cache, [])
    | none =>
        match env.folderExists env.rootPageId folderName with
        | some existingFolderId =>
            (setCache cache folderPath existingFolderId, [folderPath])
        | none =>
            match env.createFolderPage env.rootPageId folderName with
            | .ok notionPageId =>
                (setCache cache folderPath notionPageId, [folderPath])
            | .error _ => (cache, [folderPath])
  else
    let parentPath := joinPath parts.dropLast
    match cache parentPath with
    | some parentId =>
        match cache folderPath with
        | some _ => (cache, [])
        | none =>
            match env.folderExists parentId folderName with
            | some existingFolderId =>
                (setCache cache folderPath existingFolderId, [folderPath])
            | none =>
                match env.createFolderPage parentId folderName with
                | .ok notionPageId =>
                    (setCache cache folderPath notionPageId, [folderPath])
                | .error _ => (cache, [folderPath])
    | none =>
        match env.folderExists env.rootPageId folderName with
        | some existingFolderId =>
            (setCache cache folderPath existingFolderId, [folderPath])
        | none =>
            match env.createFolderPage env.rootPageId folderName with
            | .ok notionPageId =>
                (setCache cache folderPath notionPageId, [folderPath])
            | .error _ => (cache, [folderPath])

/-- `NotionSyncService.ensureFolderStructure` (part_002 version): collect
the distinct folder prefixes, sort them, process them in order. Besides the
updated cache it returns the ordered trace of folder-ensure calls. -/
def ensureFolderStructure (env : SyncEnv) (cache : PageCache)
    (files : List VaultFile) : PageCache × List String :=
  (sortByBool pathLeStr (collectFolders files)).foldl
    (fun st fp =>
      let r := ensureOneFolder env st.1 fp
      (r.1, st.2 ++ r.2))
    (cache, [])

/-! ### The per-file bodies and the two passes -/

/-- `getParentPageId`: empty parent resolves to the root page. -/
def getParentPageId (env : SyncEnv) (cache : PageCache) (parentPath : String) :
    Option String :=
  if parentPath = "" then some env.rootPageId else cache parentPath

/-- The `updateFileTracking` call in the loop body: re-reads the file (the
read may throw) and stores the new fingerprint. -/
def updateFileTrackingE (env : SyncEnv) (st : SyncState) (path : String) :
    SyncState × Except String Unit :=
  match env.readFile path with
  | .error e => (st, .error e)
  | .ok content =>
      let tracking1 :=
        FileTracker.updateFileTracking env.hashFn st.tracking path content env.now
      ({st with tracking := tracking1}, .ok ())

/-- Sequential chunk appends through `appendBlocksWithRetry` (no per-batch
sanitization); the first exhausted-retries error propagates. -/
def appendChunksRaw (env : SyncEnv) (pageId : String) :
    List (List NotionBlock) → Except String Unit
  | [] => .ok ()
  | chunk :: rest =>
      match env.appendBatch pageId chunk with
      | .error e => .error e
      | .ok _ => appendChunksRaw env pageId rest

/-- Sequential chunk appends through `appendBlocksSafely` (each batch is
sanitized before sending); the first exhausted-retries error propagates. -/
def appendChunksSanitized (env : SyncEnv) (pageId : String) :
    List (List NotionBlock) → Except String Unit
  | [] => .ok ()
  | chunk :: rest =>
      match env.appendBatch pageId (sanitizeBlocks chunk) with
      | .error e => .error e
      | .ok _ => appendChunksSanitized env pageId rest

/-- `NotionSyncService.createFormattedNotionPage`: create the page bare
(this request's failure propagates), then append `parseMarkdownToBlocks`
batches of 30; every append failure is caught inside the method (retried
per block, then logged), so only the creation outcome is observable. -/
def createFormattedNotionPage (env : SyncEnv) (parentId title : String)
    (markdownContent : Str) : Except String String :=
  match env.createPage parentId title [] with
  | .error e => .error e
  | .ok pageId =>
      let blocks := parseMarkdownToBlocks markdownContent
      let _batches := chunkListGo 30 (blocks.length + 1) blocks
      .ok pageId

/-- `NotionSyncService.createNotionPageRobust`: create the page with the
first `splitIntoManageableBlocks` chunk as children and append the rest via
`appendBlocksSafely`; on any failure fall back to a minimal-content page
creation, whose failure propagates. -/
def createNotionPageRobust (env : SyncEnv) (parentId title : String)
    (content : Str) : Except String String :=
  let enhancedBlocks := enhancedMarkdownToNotionBlocks content
  let blockChunks := splitIntoManageableBlocks enhancedBlocks
  let initialBlocks := blockChunks.headD []
  let attempt : Except String String :=
    match env.createPage parentId title initialBlocks with
    | .error e => .error e
    | .ok pageId =>
        match appendChunksSanitized env pageId (blockChunks.drop 1) with
        | .error e => .error e
        | .ok _ => .ok pageId
  match attempt with
  | .ok pageId => .ok pageId
  | .error _ => env.createPageMinimal parentId title

/-- The write-or-create tail of the incremental loop body (after change
detection): read, process links, then either clear-and-append to the cached
page (batches of 40, unsanitized, via `appendBlocksWithRetry`) or create a
formatted page and cache its id; finally update the tracking. -/
def writePhase (env : SyncEnv) (st : SyncState) (f : VaultFile)
    (parentId : String) : SyncState × Except String FileOutcome :=
  match env.readFile f.path with
  | .error e => (st, .error e)
  | .ok content =>
      let contentWithProcessedLinks := env.processDoc st.pageCache content
      match st.pageCache f.path with
      | some pageId =>
          match env.clearBlocks pageId with
          | .error e => (st, .error e)
          | .ok _ =>
              let blocks := convertMarkdownToEnhancedBlocks contentWithProcessedLinks
              match appendChunksRaw env pageId
                  (chunkListGo 40 (blocks.length + 1) blocks) with
              | .error e => (st, .error e)
              | .ok _ =>
                  match updateFileTrackingE env st f.path with
                  | (st2, .error e) => (st2, .error e)
                  | (st2, .ok _) => (st2, .ok .success)
      | none =>
          match createFormattedNotionPage env parentId f.name
              contentWithProcessedLinks with
          | .error e => (st, .error e)
          | .ok notionPageId =>
              let st1 := {st with pageCache := setCache st.pageCache f.path notionPageId}
              match updateFileTrackingE env st1 f.path with
              | (st2, .error e) => (st2, .error e)
              | (st2, .ok _) => (st2, .ok .success)

/-- The incremental loop body (`syncFilesToNotion`): skip non-Markdown
files; adopt an existing same-title page into the cache; skip unchanged
cached files; drop the cache entry when the cached page no longer exists;
then write. State changes made before a throw persist (the service mutates
in place). -/
def perFileSync (env : SyncEnv) (st : SyncState) (f : VaultFile) :
    SyncState × Except String FileOutcome :=
  if !(strEndsWith f.path.data (strLit ".md")) then (st, .ok .nonMarkdown)
  else
    let parentId := (getParentPageId env st.pageCache f.parent).getD env.rootPageId
    let existingPageId := env.pageExistsByTitle parentId f.name
    match existingPageId, st.pageCache f.path with
    | some pid, none =>
        ({st with pageCache := setCache st.pageCache f.path pid}, .ok .existing)
    | _, _ =>
        match st.pageCache f.path with
        | some pageId =>
            match FileTracker.hasFileChanged env.hashFn st.tracking f.path
                f.mtime (env.readFile f.path) with
            | .error e => (st, .error e)
            | .ok false => (st, .ok .skipped)
            | .ok true =>
                let st1 :=
                  if env.notionPageExists pageId then st
                  else {st with pageCache := removeCache st.pageCache f.path}
                writePhase env st1 f parentId
        | none => writePhase env st f parentId

/-- The full-resync loop body (`syncFilesToNotionFull`): every Markdown file
goes through `createNotionPageRobust`, then the tracking update. -/
def perFileFull (env : SyncEnv) (st : SyncState) (f : VaultFile) :
    SyncState × Except String FileOutcome :=
  if !(strEndsWith f.path.data (strLit ".md")) then (st, .ok .nonMarkdown)
  else
    match env.readFile f.path with
    | .error e => (st, .error e)
    | .ok content =>
        let contentWithProcessedLinks := env.processDoc st.pageCache content
        let parentId := (getParentPageId env st.pageCache f.parent).getD env.rootPageId
        match createNotionPageRobust env parentId f.name
            contentWithProcessedLinks with
        | .error e => (st, .error e)
        | .ok notionPageId =>
            let st1 := {st with pageCache := setCache st.pageCache f.path notionPageId}
            match updateFileTrackingE env st1 f.path with
            | (st2, .error e) => (st2, .error e)
            | (st2, .ok _) => (st2, .ok .success)

/-- The `for (const file of sortedFiles) { try … catch { errorCount++ } }`
loop: a per-file error is counted and the loop continues with the state the
body had produced so far. -/
def syncLoopWith (step : SyncState → VaultFile → SyncState × Except String FileOutcome) :
    List VaultFile → SyncState → SyncCounts → SyncState × SyncCounts
  | [], st, counts => (st, counts)
  | f :: rest, st, counts =>
      match step st f with
      | (st', .ok .nonMarkdown) => syncLoopWith step rest st' counts
      | (st', .ok .existing) =>
          syncLoopWith step rest st'
            {counts with existingCount := counts.existingCount + 1}
      | (st', .ok .skipped) =>
          syncLoopWith step rest st'
            {counts with skippedCount := counts.skippedCount + 1}
      | (st', .ok .success) =>
          syncLoopWith step rest st'
            {counts with successCount := counts.successCount + 1}
      | (st', .error _) =>
          syncLoopWith step rest st'
            {counts with errorCount := counts.errorCount + 1}

/-- `NotionSyncService.syncFilesToNotion` (incremental pass): connection
check (failure is thrown), tracking cleanup, sort, folder structure, then
the per-file loop; per-file errors never escape the loop. -/
def syncFilesToNotion (env : SyncEnv) (files : List VaultFile)
    (st0 : SyncState) : Except String (SyncState × SyncCounts) :=
  if !env.testConnection then
    .error "Falha na conexão com a API do Notion. Verifique seu token."
  else
    let st1 : SyncState :=
      {st0 with tracking :=
          FileTracker.cleanupDeletedFiles st0.tracking (files.map (·.path))}
    let sortedFiles := sortFilesByPath files
    let st2 : SyncState :=
      {st1 with pageCache := (ensureFolderStructure env st1.pageCache sortedFiles).1}
    .ok (syncLoopWith (perFileSync env) sortedFiles st2 ⟨0, 0, 0, 0⟩)

/-- `clearAllPagesFromRoot`: fetching the child list may throw (and the
error is rethrown); each archive call's error is swallowed per page. -/
def clearAllPagesFromRoot (env : SyncEnv) : Except String Unit :=
  match env.childPagesOfRoot with
  | .error e => .error e
  | .ok pageIds =>
      let _archived := pageIds.map env.archivePage
      .ok ()

/-- `NotionSyncService.syncFilesToNotionFull` (full resync): connection
check, cache wipe, tracking cleanup, root clearing (its failure is
rethrown), folder structure, then the per-file loop. -/
def syncFilesToNotionFull (env : SyncEnv) (files : List VaultFile)
    (st0 : SyncState) : Except String (SyncState × SyncCounts) :=
  if !env.testConnection then
    .error "Falha na conexão com a API do Notion. Verifique seu token."
  else
    let st1 : SyncState :=
      ⟨fun _ => none,
        FileTracker.cleanupDeletedFiles st0.tracking (files.map (·.path))⟩
    match clearAllPagesFromRoot env with
    | .error e => .error e
    | .ok _ =>
        let sortedFiles := sortFilesByPath files
        let st2 : SyncState :=
          {st1 with pageCache := (ensureFolderStructure env st1.pageCache sortedFiles).1}
        .ok (syncLoopWith (perFileFull env) sortedFiles st2 ⟨0, 0, 0, 0⟩)

/-- Final state of a pass result (the error case yields the empty state;
used only to phrase closed statements about successful passes). -/
def syncResultState (r : Except String (SyncState × SyncCounts)) : SyncState :=
  match r with
  | .ok (st, _) => st
  | .error _ => ⟨fun _ => none, fun _ => none⟩

/-! ## Concrete environments and states for the closed statements -/

/-- The empty service state. -/
def stEmpty : SyncState := ⟨fun _ => none, fun _ => none⟩

/-- An environment in which every remote call succeeds. -/
def envOk : SyncEnv where
  testConnection := true
  rootPageId := "root"
  hashFn := id
  now := 7
  readFile := fun _ => .ok (strLit "hi")
  processDoc := fun _ c => c
  pageExistsByTitle := fun _ _ => none
  notionPageExists := fun _ => true
  clearBlocks := fun _ => .ok ()
  appendBatch := fun _ _ => .ok ()
  createPage := fun _ _ _ => .ok "pid-new"
  createPageMinimal := fun _ _ => .ok "pid-min"
  folderExists := fun _ _ => none
  createFolderPage := fun _ n => .ok ("folder-" ++ n)
  childPagesOfRoot := .ok []
  archivePage := fun _ => .ok ()

/-- `envOk` with every vault read failing. -/
def envReadFail : SyncEnv := {envOk with readFile := fun _ => .error "read failed"}

/-- `envOk` with the root child enumeration failing. -/
def envBadRoot : SyncEnv :=
  {envOk with childPagesOfRoot := .error "Erro ao buscar páginas: 500"}

/-- A state that tracks (and caches) a path that no longer exists locally. -/
def stStale : SyncState :=
  ⟨fun p => if p = "gone.md" then some "pid-1" else none,
   fun p => if p = "gone.md" then some ⟨strLit "h", 5⟩ else none⟩

/-- A sample Markdown file at the vault root. -/
def fileA : VaultFile := ⟨"a.md", "a", "", 0⟩

/-! ## Helper lemmas -/

theorem mem_insertSorted (le : α → α → Bool) (x y : α) (l : List α) :
    y ∈ insertSorted le x l ↔ y = x ∨ y ∈ l := by
  induction l with
  | nil => simp [insertSorted]
  | cons z zs ih =>
      by_cases h : le x z = true
      · simp [insertSorted, h]
      · simp only [insertSorted, h]
        simp [ih]
        tauto

theorem mem_sortByBool (le : α → α → Bool) (x : α) (l : List α) :
    x ∈ sortByBool le l ↔ x ∈ l := by
  induction l with
  | nil => simp [sortByBool]
  | cons z zs ih =>
      simp only [sortByBool, List.foldr_cons] at ih ⊢
      rw [mem_insertSorted]
      simp [ih]

theorem length_stripBulletMarker (l : Str) :
    (stripBulletMarker l).length ≤ l.length := by
  unfold stripBulletMarker
  have hsub : (l.dropWhile isSpaceChar).length ≤ l.length :=
    (List.dropWhile_sublist isSpaceChar (l := l)).length_le
  split
  · rename_i c d rest heq
    split
    · rw [heq] at hsub
      simp at hsub
      omega
    · exact le_rfl
  · exact le_rfl

theorem length_stripNumberMarker (l : Str) :
    (stripNumberMarker l).length ≤ l.length := by
  unfold stripNumberMarker
  dsimp only
  have hsub : (l.dropWhile isSpaceChar).length ≤ l.length :=
    (List.dropWhile_sublist isSpaceChar (l := l)).length_le
  have hdrop : ((l.dropWhile isSpaceChar).drop
      ((l.dropWhile isSpaceChar).takeWhile Char.isDigit).length).length ≤
      (l.dropWhile isSpaceChar).length := by
    simp
  split
  · rename_i c d rest heq
    split
    · rw [heq] at hdrop
      simp at hdrop
      omega
    · exact le_rfl
  · exact le_rfl

theorem splitOnChar_no_sep (sep : Char) (s : Str) (h : sep ∉ s) :
    splitOnChar sep s = [s] := by
  induction s with
  | nil => rfl
  | cons c cs ih =>
      simp only [List.mem_cons, not_or] at h
      have step : splitOnChar sep (c :: cs) =
          if c = sep then [] :: splitOnChar sep cs
          else
            match splitOnChar sep cs with
            | [] => [[c]]
            | l :: ls => (c :: l) :: ls := rfl
      rw [step, ih h.2, if_neg (fun hc => h.1 hc.symm)]

theorem splitOnDoubleNewline_no_nl (s : Str) (h : '\n' ∉ s) :
    splitOnDoubleNewline s = [s] := by
  induction s with
  | nil => rfl
  | cons c cs ih =>
      cases cs with
      | nil => rfl
      | cons d rest =>
          simp only [List.mem_cons, not_or] at h
          have hcond : (c = '\n' && d = '\n') = false := by
            have hc : ¬c = '\n' := fun hc => h.1 hc.symm
            simp [hc]
          rw [splitOnDoubleNewline, hcond]
          simp only [Bool.false_eq_true, if_false]
          have ih2 := ih (by simp [List.mem_cons, not_or]; exact h.2)
          rw [ih2]

theorem intercalate_single (sep x : Str) : List.intercalate sep [x] = x := by
  simp [List.intercalate]

theorem isStrippedCtrl_nl : isStrippedCtrl '\n' = true := by decide

theorem sanitizeContent_spec (content : Str) :
    (sanitizeContent content).length ≤ 1903 ∧ '\n' ∉ sanitizeContent content := by
  unfold sanitizeContent
  dsimp only
  have hnl : '\n' ∉ content.filter (fun c => !isStrippedCtrl c) := by
    intro hmem
    have h2 := (List.mem_filter.mp hmem).2
    rw [isStrippedCtrl_nl] at h2
    simp at h2
  rw [splitOnDoubleNewline_no_nl _ hnl]
  simp only [List.map_cons, List.map_nil]
  rw [intercalate_single]
  constructor
  · split
    · simp only [List.length_append, List.length_take, strLit]
      have : (strLit "...").length = 3 := by decide
      simp only [strLit] at this
      omega
    · omega
  · split
    · intro hmem
      rcases List.mem_append.mp hmem with hmem | hmem
      · exact hnl ((List.take_sublist _ _).subset hmem)
      · revert hmem
        decide
    · exact hnl

theorem hrLine_shape {l : Str} (h : isHrLine l = true) :
    ∃ t, l = '-' :: '-' :: '-' :: t ∨ l = '_' :: '_' :: '_' :: t ∨
      l = '*' :: '*' :: '*' :: t := by
  unfold isHrLine at h
  simp only [Bool.and_eq_true, decide_eq_true_eq, Bool.or_eq_true,
    List.all_eq_true] at h
  obtain ⟨hlen, hall⟩ := h
  rcases l with _ | ⟨a, _ | ⟨b, _ | ⟨c, t⟩⟩⟩
  · simp at hlen
  · simp at hlen
  · simp at hlen
  · refine ⟨t, ?_⟩
    rcases hall with (h | h) | h
    · have ha := h a (by simp)
      have hb := h b (by simp)
      have hc := h c (by simp)
      left
      rw [ha, hb, hc]
    · have ha := h a (by simp)
      have hb := h b (by simp)
      have hc := h c (by simp)
      right; left
      rw [ha, hb, hc]
    · have ha := h a (by simp)
      have hb := h b (by simp)
      have hc := h c (by simp)
      right; right
      rw [ha, hb, hc]

theorem hr_guards {l : Str} (h : isHrLine l = true) :
    strStartsWith l (strLit "```") = false ∧ strStartsWith l (strLit "# ") = false ∧
    strStartsWith l (strLit "## ") = false ∧ strStartsWith l (strLit "### ") = false ∧
    isBulletLine l = false ∧ isNumberedLine l = false := by
  obtain ⟨t, ht⟩ := hrLine_shape h
  rcases ht with ht | ht | ht <;> subst ht <;> exact ⟨rfl, rfl, rfl, rfl, rfl, rfl⟩

/-! ## Claim theorems -/

/-- C10: for every input string, `cleanPageId` returns a string of length at
most 32 containing only ASCII alphanumeric characters. -/
theorem C10_cleanPageId_bounded (pageId : Str) :
    (cleanPageId pageId).length ≤ 32 ∧
      ∀ c ∈ cleanPageId pageId, isAsciiAlphanum c = true := by
  unfold cleanPageId
  dsimp only
  constructor
  · split
    · simp
    · omega
  · intro c hc
    split at hc
    · exact (List.mem_filter.mp ((List.take_sublist _ _).subset hc)).2
    · exact (List.mem_filter.mp hc).2

/-- C10 witness: the theorem applied at a concrete id, with the membership
hypothesis of the alphanumeric conjunct discharged at a concrete char. -/
theorem C10_cleanPageId_bounded_witness :
    (cleanPageId (strLit "abc-def-123-xyz-abc-def-123-xyz-MORE")).length ≤ 32 ∧
      isAsciiAlphanum 'a' = true :=
  ⟨(C10_cleanPageId_bounded (strLit "abc-def-123-xyz-abc-def-123-xyz-MORE")).1,
   (C10_cleanPageId_bounded (strLit "abc-def-123-xyz-abc-def-123-xyz-MORE")).2
     'a' (by decide)⟩

/-- C7: `splitContentIntoChunks` drops the character at the chunk boundary
when no line boundary precedes the size limit: on content `"abcd"` with
limit 2 it returns `["ab", "d"]`, losing `"c"`, so rejoining the fragments
with a newline does not restore the original text. -/
theorem C7_splitContentIntoChunks_loses_chars :
    splitContentIntoChunks (strLit "abcd") 2 = [strLit "ab", strLit "d"] ∧
    joinNl (splitContentIntoChunks (strLit "abcd") 2) ≠ strLit "abcd" := by
  decide

/-- C2 counterexample: converting
`"# Title\n\nHello\n\n```py\nprint(1)\n```"` does not produce a code block
with language `"python"`: `"py"` is not in the `supportedLanguages`
whitelist and there is no nearest-identifier mapping, so the language falls
back to `"plain text"`. -/
theorem C2_scenario_counterexample :
    markdownToNotionBlocks (strLit "# Title\n\nHello\n\n```py\nprint(1)\n```") ≠
      [NotionBlock.heading 1 (strLit "Title"),
       NotionBlock.paragraph (strLit "Hello"),
       NotionBlock.code (strLit "print(1)") (strLit "python")] := by
  decide

/-- C2 amended: the scenario input converts to exactly three blocks, in
order Heading(1, "Title"), Paragraph("Hello"), CodeBlock("print(1)") — but
with language `"plain text"`, the fallback for the unrecognized token
`"py"`. -/
theorem C2_scenario_amended :
    markdownToNotionBlocks (strLit "# Title\n\nHello\n\n```py\nprint(1)\n```") =
      [NotionBlock.heading 1 (strLit "Title"),
       NotionBlock.paragraph (strLit "Hello"),
       NotionBlock.code (strLit "print(1)") (strLit "plain text")] := by
  decide

/-- C1 counterexample: `hasFileChanged` is not true after every byte-level
mutation regardless of mtime — after committing content `"a"` at time 100,
mutating the content to `"b"` while the mtime (100) is not newer than the
recorded sync time reports the file as unchanged (the mtime pre-filter
skips the hash comparison entirely). -/
theorem C1_fingerprint_counterexample :
    FileTracker.hasFileChanged id
        (FileTracker.updateFileTracking id (fun _ => none) "f.md" (strLit "a") 100)
        "f.md" 100 (.ok (strLit "b")) = .ok false ∧
      strLit "b" ≠ strLit "a" :=
  ⟨rfl, by decide⟩

/-- C1 amended: immediately after `updateFileTracking` with the same
content, `hasFileChanged` is false for every mtime; and after a content
mutation it is true provided the mtime is newer than the recorded sync time
(with a hash function separating the two contents). -/
theorem C1_fingerprint_amended (hashFn : Str → Str) (tr : FileTracker.Tracking)
    (path : String) (content c' : Str) (now mtime mtime' : Nat) :
    FileTracker.hasFileChanged hashFn
        (FileTracker.updateFileTracking hashFn tr path content now)
        path mtime (.ok content) = .ok false ∧
      (now < mtime' → hashFn c' ≠ hashFn content →
        FileTracker.hasFileChanged hashFn
          (FileTracker.updateFileTracking hashFn tr path content now)
          path mtime' (.ok c') = .ok true) := by
  have hlook : FileTracker.updateFileTracking hashFn tr path content now path =
      some ⟨hashFn content, now⟩ := by
    simp [FileTracker.updateFileTracking]
  constructor
  · unfold FileTracker.hasFileChanged
    rw [hlook]
    dsimp only
    split
    · simp
    · rfl
  · intro h1 h2
    unfold FileTracker.hasFileChanged
    rw [hlook]
    dsimp only
    rw [if_pos h1]
    simp [bne_iff_ne, h2]

/-- C1 witness: the amended theorem at a concrete tracker state. -/
theorem C1_fingerprint_witness :
    FileTracker.hasFileChanged id
        (FileTracker.updateFileTracking id (fun _ => none) "g.md" (strLit "a") 100)
        "g.md" 50 (.ok (strLit "a")) = .ok false ∧
      FileTracker.hasFileChanged id
        (FileTracker.updateFileTracking id (fun _ => none) "g.md" (strLit "a") 100)
        "g.md" 101 (.ok (strLit "b")) = .ok true :=
  ⟨(C1_fingerprint_amended id (fun _ => none) "g.md" (strLit "a") (strLit "b")
      100 50 101).1,
   (C1_fingerprint_amended id (fun _ => none) "g.md" (strLit "a") (strLit "b")
      100 50 101).2 (by decide) (by decide)⟩

/-- C5 counterexample: with every attempt failing on a 4-block batch,
`appendBlocksWithRetry` waits 1000ms then 2000ms (not 500ms then 1000ms)
and never shrinks the batch (4 ≤ 10), so the batch sizes are [4,4,4] rather
than halving toward a floor of 1. -/
theorem C5_retry_counterexample :
    appendBlocksWithRetry (fun _ => false) ([0, 1, 2, 3] : List Nat) =
        ⟨[4, 4, 4], [1000, 2000], false⟩ ∧
      ([1000, 2000] : List Nat) ≠ [500, 1000] ∧
      ([4, 4, 4] : List Nat) ≠ [4, 2, 1] := by
  decide

theorem length_shrink10 (l : List Nat) :
    (if l.length > 10 then l.take (l.length / 2) else l).length =
      halveAbove10 l.length := by
  unfold halveAbove10
  split <;> simp [Nat.min_eq_left (Nat.div_le_self _ _)]

theorem length_shrink5 (l : List Nat) :
    (if l.length > 5 then l.take (l.length / 2) else l).length =
      halveAbove5 l.length := by
  unfold halveAbove5
  split <;> simp [Nat.min_eq_left (Nat.div_le_self _ _)]

/-- C5 amended: the retried append makes at most 3 attempts; the waits
after the failed attempts are 1000ms then 2000ms (`500 * 2 ^ retryCount`
with `retryCount` already incremented — not starting at 500ms); and after
each failure the batch is halved only while it holds more than 10 blocks
(`appendBlocksWithRetry`) or more than 5 blocks (`appendBlocksSafely`) —
so consecutive attempt sizes are related by `halveAbove10`/`halveAbove5`,
with no halving floor of 1. -/
theorem C5_retry_amended (succeeds succeedsS : Nat → Bool)
    (blocks blocksS : List Nat) :
    ((appendBlocksWithRetry succeeds blocks).attemptSizes.length ≤ 3 ∧
      (appendBlocksWithRetry succeeds blocks).delays =
        List.take ((appendBlocksWithRetry succeeds blocks).attemptSizes.length - 1)
          [1000, 2000] ∧
      (appendBlocksWithRetry succeeds blocks).attemptSizes.head? =
        some blocks.length ∧
      List.Chain' (fun a b => b = halveAbove10 a)
        (appendBlocksWithRetry succeeds blocks).attemptSizes) ∧
    ((appendBlocksSafely succeedsS blocksS).attemptSizes.length ≤ 3 ∧
      (appendBlocksSafely succeedsS blocksS).delays =
        List.take ((appendBlocksSafely succeedsS blocksS).attemptSizes.length - 1)
          [1000, 2000] ∧
      (appendBlocksSafely succeedsS blocksS).attemptSizes.head? =
        some blocksS.length ∧
      List.Chain' (fun a b => b = halveAbove5 a)
        (appendBlocksSafely succeedsS blocksS).attemptSizes) := by
  constructor
  · cases h0 : succeeds 0 <;> cases h1 : succeeds 1 <;> cases h2 : succeeds 2 <;>
      simp [appendBlocksWithRetry, appendRetryGo, h0, h1, h2,
        List.chain'_cons] <;>
      (repeat' constructor) <;> exact length_shrink10 _
  · cases h0 : succeedsS 0 <;> cases h1 : succeedsS 1 <;> cases h2 : succeedsS 2 <;>
      simp [appendBlocksSafely, appendSafelyGo, h0, h1, h2,
        List.chain'_cons] <;>
      (repeat' constructor) <;> exact length_shrink5 _

/-- C9 counterexample: a horizontal-rule line is not always converted to a
Divider — `"---"` directly following the paragraph line `"x"` is folded
into the paragraph by `convertMarkdownToEnhancedBlocks` (the paragraph
continuation condition does not exclude rule lines), and the notion-utils
`markdownToNotionBlocks` has no divider case at all, turning a lone `"---"`
into a paragraph. -/
theorem C9_divider_counterexample :
    isHrLine (strLit "---") = true ∧
    convertMarkdownToEnhancedBlocks (strLit "x\n---") =
      [NotionBlock.paragraph (strLit "x\n---")] ∧
    NotionBlock.divider ∉ convertMarkdownToEnhancedBlocks (strLit "x\n---") ∧
    markdownToNotionBlocks (strLit "---") =
      [NotionBlock.paragraph (strLit "---")] := by
  decide

/-- C9 amended: in the two service parsers
(`convertMarkdownToEnhancedBlocks` and `parseMarkdownToBlocks`), a
horizontal-rule line emits a Divider exactly when the scanner reaches it at
the start of a parse step — i.e. when it is not absorbed as the
continuation of an open paragraph; the notion-utils converter emits no
dividers (see the counterexample). -/
theorem C9_divider_amended (fuel : Nat) (line : Str) (rest : List Str)
    (h : isHrLine line = true) :
    convEnhGo (fuel + 1) (line :: rest) = NotionBlock.divider :: convEnhGo fuel rest ∧
    parseMdGo (fuel + 1) (line :: rest) = NotionBlock.divider :: parseMdGo fuel rest := by
  obtain ⟨h1, h2, h3, h4, h5, h6⟩ := hr_guards h
  constructor
  · simp [convEnhGo, h1, h2, h3, h4, h5, h6, h]
  · simp [parseMdGo, h1, h2, h3, h4, h5, h6, h]

/-- C9 witness: the amended step theorem applied to the concrete rule line
`"---"` at the end of input. -/
theorem C9_divider_witness :
    convEnhGo 1 [strLit "---"] = [NotionBlock.divider] ∧
    parseMdGo 1 [strLit "---"] = [NotionBlock.divider] := by
  have h := C9_divider_amended 0 (strLit "---") [] (by decide)
  simpa using h

theorem dropWhile_false_of (p : Char → Bool) (s : Str)
    (h : ∀ c ∈ s, p c = false) : s.dropWhile p = s := by
  cases s with
  | nil => rfl
  | cons c cs => simp [List.dropWhile_cons, h c (by simp)]

theorem jsTrim_no_space (s : Str) (h : ∀ c ∈ s, isSpaceChar c = false) :
    jsTrim s = s := by
  unfold jsTrim
  rw [dropWhile_false_of _ _ h,
    dropWhile_false_of _ _ (fun c hc => h c (List.mem_reverse.mp hc)),
    List.reverse_reverse]

theorem normalizeNewlines_no_cr (s : Str) (h : '\r' ∉ s) :
    normalizeNewlines s = s := by
  induction s with
  | nil => rfl
  | cons c cs ih =>
      simp only [List.mem_cons, not_or] at h
      have hc : ¬c = '\r' := fun hcc => h.1 hcc.symm
      cases cs with
      | nil => rfl
      | cons d rest =>
          have hcond : (c = '\r' && d = '\n') = false := by simp [hc]
          rw [normalizeNewlines, hcond]
          simp only [Bool.false_eq_true, if_false]
          rw [ih h.2]

theorem replaceEach_id (f : Char → Str) (s : Str) (h : ∀ c ∈ s, f c = [c]) :
    replaceEach f s = s := by
  induction s with
  | nil => rfl
  | cons c cs ih =>
      simp only [replaceEach, List.map_cons, List.flatten_cons]
      rw [h c (List.mem_cons_self c cs), List.singleton_append]
      exact congrArg (c :: ·) (ih fun x hx => h x (List.mem_cons_of_mem _ hx))

theorem mdGo_single_line (s : Str) (b : NotionBlock)
    (hb : b ∈ mdGo [s] [] false [] []) :
    blockTextLength b ≤ s.length ∧ ∀ c lang, b ≠ NotionBlock.code c lang := by
  by_cases h1 : strStartsWith s (strLit "```") = true
  · simp [mdGo, h1, flushPara] at hb
  · by_cases h2 : strStartsWith s (strLit "# ") = true
    · simp [mdGo, h1, h2, flushPara] at hb
      subst hb
      refine ⟨?_, by simp [createHeadingBlock]⟩
      simp [blockTextLength, createHeadingBlock]
    · by_cases h3 : strStartsWith s (strLit "## ") = true
      · simp [mdGo, h1, h2, h3, flushPara] at hb
        subst hb
        refine ⟨?_, by simp [createHeadingBlock]⟩
        simp [blockTextLength, createHeadingBlock]
      · by_cases h4 : strStartsWith s (strLit "### ") = true
        · simp [mdGo, h1, h2, h3, h4, flushPara] at hb
          subst hb
          refine ⟨?_, by simp [createHeadingBlock]⟩
          simp [blockTextLength, createHeadingBlock]
        · by_cases h5 : isBulletLine s = true
          · simp [mdGo, h1, h2, h3, h4, h5, flushPara] at hb
            subst hb
            refine ⟨?_, by simp [createBulletListBlock]⟩
            simpa [blockTextLength, createBulletListBlock] using
              length_stripBulletMarker s
          · by_cases h6 : isNumberedLine s = true
            · simp [mdGo, h1, h2, h3, h4, h5, h6, flushPara] at hb
              subst hb
              refine ⟨?_, by simp [createNumberedListBlock]⟩
              simpa [blockTextLength, createNumberedListBlock] using
                length_stripNumberMarker s
            · by_cases h7 : (jsTrim s).isEmpty = true
              · simp [mdGo, h1, h2, h3, h4, h5, h6, h7, flushPara] at hb
              · by_cases h8 : s.isEmpty = true
                · simp [mdGo, h1, h2, h3, h4, h5, h6, h7, h8, flushPara] at hb
                · simp [mdGo, h1, h2, h3, h4, h5, h6, h7, h8, flushPara] at hb
                  subst hb
                  exact ⟨by simp [blockTextLength, createParagraphBlock],
                    by simp [createParagraphBlock]⟩

theorem markdownToNotionBlocks_no_nl (s : Str) (hs : '\n' ∉ s)
    (b : NotionBlock) (hb : b ∈ markdownToNotionBlocks s) :
    blockTextLength b ≤ s.length ∧ ∀ c lang, b ≠ NotionBlock.code c lang := by
  unfold markdownToNotionBlocks at hb
  rw [show splitLines s = [s] from splitOnChar_no_sep _ _ hs] at hb
  exact mdGo_single_line s b hb

theorem flatten_map_singleton (f : NotionBlock → List NotionBlock)
    (blocks : List NotionBlock) (h : ∀ b ∈ blocks, f b = [b]) :
    (blocks.map f).flatten = blocks := by
  induction blocks with
  | nil => rfl
  | cons b bs ih =>
      simp only [List.map_cons, List.flatten_cons]
      rw [h b (List.mem_cons_self b bs), List.singleton_append]
      exact congrArg (b :: ·) (ih fun x hx => h x (List.mem_cons_of_mem _ hx))

theorem sanitizeBlocks_bound (blocks : List NotionBlock) (n : Nat)
    (hn : n ≤ 1903)
    (h : ∀ b ∈ blocks, blockTextLength b ≤ n ∧
      ∀ c lang, b ≠ NotionBlock.code c lang)
    (b : NotionBlock) (hb : b ∈ sanitizeBlocks blocks) :
    blockTextLength b ≤ 2000 := by
  unfold sanitizeBlocks at hb
  obtain ⟨b', hb', rfl⟩ := List.mem_map.mp hb
  obtain ⟨hlen, hcode⟩ := h b' hb'
  cases b' with
  | code c lang => exact absurd rfl (hcode c lang)
  | paragraph c =>
      dsimp only
      split
      · have h3 : (strLit "...").length = 3 := rfl
        simp [blockTextLength, h3]
      · simp [blockTextLength] at hlen ⊢
        omega
  | heading lvl c =>
      simp [blockTextLength] at hlen ⊢
      omega
  | bulletItem c =>
      simp [blockTextLength] at hlen ⊢
      omega
  | numberedItem c =>
      simp [blockTextLength] at hlen ⊢
      omega
  | divider => simp [blockTextLength]

/-- C3 amended: every block emitted by the sanitized conversion pipeline
`enhancedMarkdownToNotionBlocks` has serialized text of length at most
2000 (in fact at most 1903, because `sanitizeContent` strips every newline
— so the converted text is a single line — and the caps are 1900 plus a
short suffix). The per-document converter `convertMarkdownToEnhancedBlocks`
enforces no such bound (see the counterexample). -/
theorem C3_blocksize_amended (md : Str) (b : NotionBlock)
    (hb : b ∈ enhancedMarkdownToNotionBlocks md) : blockTextLength b ≤ 2000 := by
  unfold enhancedMarkdownToNotionBlocks at hb
  dsimp only at hb
  obtain ⟨hlen, hnl⟩ := sanitizeContent_spec md
  have hraw := fun b' hb' =>
    markdownToNotionBlocks_no_nl (sanitizeContent md) hnl b' hb'
  rw [flatten_map_singleton _ _ (fun b' hb' => by
    have hcode := (hraw b' hb').2
    cases b' with
    | code c lang => exact absurd rfl (hcode c lang)
    | paragraph c => rfl
    | heading lvl c => rfl
    | bulletItem c => rfl
    | numberedItem c => rfl
    | divider => rfl)] at hb
  exact sanitizeBlocks_bound _ _ hlen
    (fun b' hb' => ⟨(hraw b' hb').1, (hraw b' hb').2⟩) b hb

/-- C3 witness: the amended bound at a concrete input. -/
theorem C3_blocksize_witness :
    blockTextLength (NotionBlock.paragraph (strLit "hi")) ≤ 2000 :=
  C3_blocksize_amended (strLit "hi") (NotionBlock.paragraph (strLit "hi"))
    (by decide)

theorem isHrLine_false_of_head (a : Char) (t : Str)
    (h : a ≠ '-' ∧ a ≠ '_' ∧ a ≠ '*') : isHrLine (a :: t) = false := by
  unfold isHrLine
  simp [List.all_cons, h.1, h.2.1, h.2.2]

theorem convEnhGo_single_paragraph (fuel : Nat) (line : Str)
    (h1 : strStartsWith line (strLit "```") = false)
    (h2 : strStartsWith line (strLit "# ") = false)
    (h3 : strStartsWith line (strLit "## ") = false)
    (h4 : strStartsWith line (strLit "### ") = false)
    (h5 : isBulletLine line = false) (h6 : isNumberedLine line = false)
    (h7 : isHrLine line = false) (h8 : (jsTrim line).isEmpty = false) :
    convEnhGo (fuel + 1) [line] = [NotionBlock.paragraph line] := by
  cases fuel <;>
    simp [convEnhGo, h1, h2, h3, h4, h5, h6, h7, h8, joinNl,
      intercalate_single, createParagraphBlock]

set_option maxRecDepth 8000 in
/-- C3 counterexample: a single 2001-character line yields, through
`convertMarkdownToEnhancedBlocks` (the converter used on the incremental
update path, whose output is appended without `sanitizeBlocks`), one
Paragraph block of 2001 characters — exceeding the ~2000-character
per-block limit. -/
theorem C3_blocksize_counterexample :
    NotionBlock.paragraph (List.replicate 2001 'a') ∈
      convertMarkdownToEnhancedBlocks (List.replicate 2001 'a') ∧
    2000 < blockTextLength (NotionBlock.paragraph (List.replicate 2001 'a')) := by
  have hmem : ∀ c ∈ List.replicate 2001 'a', c = 'a' := fun c hc =>
    List.eq_of_mem_replicate hc
  have hcons : List.replicate 2001 'a' = 'a' :: 'a' :: 'a' :: List.replicate 1998 'a' := by
    rw [show (2001 : Nat) = 3 + 1998 by norm_num, List.replicate_add]
    rfl
  have hnr : normalizeNewlines (List.replicate 2001 'a') = List.replicate 2001 'a' :=
    normalizeNewlines_no_cr _ (fun hr => absurd (hmem _ hr) (by decide))
  have htab : replaceTabs4 (List.replicate 2001 'a') = List.replicate 2001 'a' :=
    replaceEach_id _ _ (fun c hc => by rw [hmem c hc]; rfl)
  have hsplit : splitLines (List.replicate 2001 'a') = [List.replicate 2001 'a'] :=
    splitOnChar_no_sep _ _ (fun hn => absurd (hmem _ hn) (by decide))
  have h1 : strStartsWith (List.replicate 2001 'a') (strLit "```") = false := by
    rw [hcons]; rfl
  have h2 : strStartsWith (List.replicate 2001 'a') (strLit "# ") = false := by
    rw [hcons]; rfl
  have h3 : strStartsWith (List.replicate 2001 'a') (strLit "## ") = false := by
    rw [hcons]; rfl
  have h4 : strStartsWith (List.replicate 2001 'a') (strLit "### ") = false := by
    rw [hcons]; rfl
  have h5 : isBulletLine (List.replicate 2001 'a') = false := by
    rw [hcons]; rfl
  have h6 : isNumberedLine (List.replicate 2001 'a') = false := by
    rw [hcons]; rfl
  have h7 : isHrLine (List.replicate 2001 'a') = false := by
    rw [hcons]
    exact isHrLine_false_of_head 'a' _ (by decide)
  have h8 : (jsTrim (List.replicate 2001 'a')).isEmpty = false := by
    rw [jsTrim_no_space _ (fun c hc => by rw [hmem c hc]; rfl), hcons]
    rfl
  constructor
  · unfold convertMarkdownToEnhancedBlocks
    dsimp only
    rw [hnr, htab, hsplit,
      convEnhGo_single_paragraph _ _ h1 h2 h3 h4 h5 h6 h7 h8]
    simp
  · simp [blockTextLength]

theorem ensureOneFolder_cache_other (env : SyncEnv) (cache : PageCache)
    (fp q : String) (h : q ≠ fp) :
    (ensureOneFolder env cache fp).1 q = cache q := by
  unfold ensureOneFolder
  dsimp only
  repeat' split
  all_goals simp_all [setCache]

theorem ensureOneFolder_trace_of_none (env : SyncEnv) (cache : PageCache)
    (fp : String) (h : cache fp = none) :
    (ensureOneFolder env cache fp).2 = [fp] := by
  unfold ensureOneFolder
  dsimp only
  repeat' split
  all_goals simp_all

/-- C8: ensuring the folder chain for a document whose parent path is
`"A/B/C"`, starting from an empty page cache, performs exactly 3
folder-ensure interactions (existence check and/or create), in the order
`A`, `A/B`, `A/B/C` — for every outcome of the remote calls. -/
theorem C8_folder_chain (env : SyncEnv) :
    (ensureFolderStructure env (fun _ => none)
        [⟨"A/B/C/n.md", "n", "A/B/C", 0⟩]).2 = ["A", "A/B", "A/B/C"] := by
  have hsort : sortByBool pathLeStr
      (collectFolders [⟨"A/B/C/n.md", "n", "A/B/C", 0⟩]) =
      ["A", "A/B", "A/B/C"] := by decide
  unfold ensureFolderStructure
  rw [hsort]
  simp only [List.foldl_cons, List.foldl_nil]
  rcases h1 : ensureOneFolder env (fun _ => none) "A" with ⟨c1, t1⟩
  have ht1 : t1 = ["A"] := by
    have := ensureOneFolder_trace_of_none env (fun _ => none) "A" rfl
    rw [h1] at this
    exact this
  have hc1 : ∀ q, q ≠ "A" → c1 q = none := by
    intro q hq
    have := ensureOneFolder_cache_other env (fun _ => none) "A" q hq
    rw [h1] at this
    exact this
  rcases h2 : ensureOneFolder env c1 "A/B" with ⟨c2, t2⟩
  have ht2 : t2 = ["A/B"] := by
    have := ensureOneFolder_trace_of_none env c1 "A/B" (hc1 "A/B" (by decide))
    rw [h2] at this
    exact this
  have hc2 : c2 "A/B/C" = none := by
    have h := ensureOneFolder_cache_other env c1 "A/B" "A/B/C" (by decide)
    rw [h2] at h
    simp only at h
    rw [h]
    exact hc1 "A/B/C" (by decide)
  rcases h3 : ensureOneFolder env c2 "A/B/C" with ⟨c3, t3⟩
  have ht3 : t3 = ["A/B/C"] := by
    have := ensureOneFolder_trace_of_none env c2 "A/B/C" hc2
    rw [h3] at this
    exact this
  simp [h1, h2, h3, ht1, ht2, ht3]

/-- C4 amended: an incremental pass raises an error iff the initial
connection check fails; a full pass raises an error iff the connection
check fails or fetching the root's children (for the pre-wipe) fails; and
a per-document failure only increments the error counter — the loop
continues with the remaining documents. -/
theorem C4_error_isolation_amended (env : SyncEnv) (files : List VaultFile)
    (st0 : SyncState) :
    ((∃ r, syncFilesToNotion env files st0 = .ok r) ↔ env.testConnection = true) ∧
    ((∃ r, syncFilesToNotionFull env files st0 = .ok r) ↔
      (env.testConnection = true ∧ ∃ pages, env.childPagesOfRoot = .ok pages)) ∧
    (∀ f rest st counts e, (perFileSync env st f).2 = .error e →
      syncLoopWith (perFileSync env) (f :: rest) st counts =
        syncLoopWith (perFileSync env) rest (perFileSync env st f).1
          {counts with errorCount := counts.errorCount + 1}) := by
  refine ⟨?_, ?_, ?_⟩
  · unfold syncFilesToNotion
    cases htc : env.testConnection <;> simp [htc]
  · unfold syncFilesToNotionFull clearAllPagesFromRoot
    cases htc : env.testConnection <;>
      cases hcp : env.childPagesOfRoot <;> simp [htc, hcp]
  · intro f rest st counts e h
    rcases hp : perFileSync env st f with ⟨st1, r⟩
    rw [hp] at h
    simp only at h
    subst h
    simp [syncLoopWith, hp]

/-- C4 witness: the isolation conjunct at a concrete failing read — the
loop charges the error and proceeds. -/
theorem C4_error_isolation_witness :
    syncLoopWith (perFileSync envReadFail) [fileA] stEmpty ⟨0, 0, 0, 0⟩ =
      syncLoopWith (perFileSync envReadFail) []
        (perFileSync envReadFail stEmpty fileA).1 ⟨0, 0, 0, 1⟩ := by
  have h := (C4_error_isolation_amended envReadFail [fileA] stEmpty).2.2
    fileA [] stEmpty ⟨0, 0, 0, 0⟩ "read failed" rfl
  simpa using h

/-- C4 counterexample: a full pass whose connection check succeeds still
raises an error to the caller when fetching the root's existing children
fails — with zero documents, so the error is not a per-document failure. -/
theorem C4_abort_counterexample :
    syncFilesToNotionFull envBadRoot [] stEmpty =
        .error "Erro ao buscar páginas: 500" ∧
      envBadRoot.testConnection = true :=
  ⟨rfl, rfl⟩

theorem updateFileTrackingE_tracking_other (env : SyncEnv) (st : SyncState)
    (path : String) (p : String) (h : p ≠ path) :
    (updateFileTrackingE env st path).1.tracking p = st.tracking p := by
  unfold updateFileTrackingE
  cases env.readFile path with
  | error e => rfl
  | ok content => simp [FileTracker.updateFileTracking, h]

theorem writePhase_tracking_other (env : SyncEnv) (st : SyncState)
    (f : VaultFile) (parentId : String) (p : String) (h : p ≠ f.path) :
    (writePhase env st f parentId).1.tracking p = st.tracking p := by
  unfold writePhase
  cases hr : env.readFile f.path with
  | error e => rfl
  | ok content =>
      dsimp only
      cases hc : st.pageCache f.path with
      | some pageId =>
          dsimp only
          cases hcb : env.clearBlocks pageId with
          | error e => rfl
          | ok u =>
              dsimp only
              cases hap : appendChunksRaw env pageId
                  (chunkListGo 40
                    ((convertMarkdownToEnhancedBlocks
                      (env.processDoc st.pageCache content)).length + 1)
                    (convertMarkdownToEnhancedBlocks
                      (env.processDoc st.pageCache content))) with
              | error e => rfl
              | ok u2 =>
                  dsimp only
                  rcases hu : updateFileTrackingE env st f.path with ⟨st2, r⟩
                  have ht := updateFileTrackingE_tracking_other env st f.path p h
                  rw [hu] at ht
                  simp only at ht
                  cases r <;> simp [hu, ht]
      | none =>
          cases hcr : createFormattedNotionPage env parentId f.name
              (env.processDoc st.pageCache content) with
          | error e => rfl
          | ok notionPageId =>
              dsimp only
              rcases hu : updateFileTrackingE env
                  {st with pageCache := setCache st.pageCache f.path notionPageId}
                  f.path with ⟨st2, r⟩
              have ht := updateFileTrackingE_tracking_other env
                {st with pageCache := setCache st.pageCache f.path notionPageId}
                f.path p h
              rw [hu] at ht
              simp only at ht
              cases r <;> simp [hu, ht]

theorem perFileSync_tracking_other (env : SyncEnv) (st : SyncState)
    (f : VaultFile) (p : String) (h : p ≠ f.path) :
    (perFileSync env st f).1.tracking p = st.tracking p := by
  unfold perFileSync
  cases hmd : strEndsWith f.path.data (strLit ".md") with
  | false => simp [hmd]
  | true =>
      simp only [hmd]
      cases he : env.pageExistsByTitle
          ((getParentPageId env st.pageCache f.parent).getD env.rootPageId)
          f.name with
      | some pid =>
          cases hc : st.pageCache f.path with
          | none => simp [he, hc]
          | some pageId =>
              simp only [he, hc]
              cases hch : FileTracker.hasFileChanged env.hashFn st.tracking
                  f.path f.mtime (env.readFile f.path) with
              | error e => rfl
              | ok b =>
                  cases b with
                  | false => rfl
                  | true =>
                      dsimp only
                      cases env.notionPageExists pageId <;>
                        simp [writePhase_tracking_other _ _ _ _ _ h]
      | none =>
          cases hc : st.pageCache f.path with
          | none =>
              simp only [he, hc]
              exact writePhase_tracking_other _ _ _ _ _ h
          | some pageId =>
              simp only [he, hc]
              cases hch : FileTracker.hasFileChanged env.hashFn st.tracking
                  f.path f.mtime (env.readFile f.path) with
              | error e => rfl
              | ok b =>
                  cases b with
                  | false => rfl
                  | true =>
                      dsimp only
                      cases env.notionPageExists pageId <;>
                        simp [writePhase_tracking_other _ _ _ _ _ h]

theorem syncLoopWith_tracking_none (env : SyncEnv) (p : String) :
    ∀ (l : List VaultFile) (st : SyncState) (counts : SyncCounts),
      (∀ f ∈ l, f.path ≠ p) → st.tracking p = none →
      (syncLoopWith (perFileSync env) l st counts).1.tracking p = none := by
  intro l
  induction l with
  | nil => intro st counts _ h0; exact h0
  | cons f rest ih =>
      intro st counts hl h0
      rcases hp : perFileSync env st f with ⟨st1, r⟩
      have h1 : st1.tracking p = none := by
        have ht := perFileSync_tracking_other env st f p (Ne.symm (hl f (by simp)))
        rw [hp] at ht
        simp only at ht
        rw [ht]
        exact h0
      have hrest : ∀ g ∈ rest, g.path ≠ p := fun g hg => hl g (by simp [hg])
      rcases r with e | o
      · simp only [syncLoopWith, hp]
        exact ih st1 _ hrest h1
      · cases o <;>
          · simp only [syncLoopWith, hp]
            exact ih st1 _ hrest h1

/-- C6 amended: after an incremental pass, the Fingerprint (file-tracking)
entry of every previously tracked path absent from the current enumeration
has been removed (`cleanupDeletedFiles` at the start of the pass, and the
loop writes tracking only for enumerated paths) — but the page-cache entry
of such a path is NOT removed (see the counterexample); only a full pass
clears the cache wholesale. -/
theorem C6_pruning_amended (env : SyncEnv) (files : List VaultFile)
    (st0 : SyncState) (p : String) (hconn : env.testConnection = true)
    (hp : p ∉ files.map (·.path)) :
    (syncResultState (syncFilesToNotion env files st0)).tracking p = none := by
  unfold syncFilesToNotion
  rw [hconn]
  simp only [Bool.not_true, Bool.false_eq_true, if_false]
  apply syncLoopWith_tracking_none
  · intro f hf
    intro hEq
    exact hp (hEq ▸ List.mem_map_of_mem (·.path)
      ((mem_sortByBool fileLe f files).mp hf))
  · simp [FileTracker.cleanupDeletedFiles, hp]

/-- C6 witness: the amended pruning statement at a concrete pass. -/
theorem C6_pruning_witness :
    (syncResultState (syncFilesToNotion envOk [] stStale)).tracking "zzz.md" =
      none :=
  C6_pruning_amended envOk [] stStale "zzz.md" rfl (by simp)

/-- C6 counterexample: a previously tracked path absent from the current
enumeration loses its Fingerprint entry, but its page-cache entry survives
the incremental pass — the cache is never pruned on deletion. -/
theorem C6_pruning_counterexample :
    (syncResultState (syncFilesToNotion envOk [] stStale)).tracking "gone.md" =
        none ∧
      (syncResultState (syncFilesToNotion envOk [] stStale)).pageCache "gone.md" =
        some "pid-1" :=
  ⟨rfl, rfl⟩
